import Mathlib

/-!
Shallow embedding of `src/app/worker.py` (`process_statement` and its
helpers) from mabel-dev/worker.opteryx.app.

Modelling conventions:
* A pyarrow `RecordBatch` is modelled by `Batch`: its row count and the
  byte sizes of its underlying column storage buffers (a `none` buffer is
  pyarrow's null buffer, skipped by `_estimate_table_bytes`).
* `pa.Table.from_batches` is zero-copy: the resulting table's column
  chunks are exactly the batches' arrays, so a table is modelled as the
  list of its batches, and `_estimate_table_bytes` (which sums every
  buffer of every chunk of every column) is the sum of the batches'
  buffer sizes — summation over (column, chunk, buffer) commutes.
* Effectful calls (Firestore reads/updates, opening the engine, object
  store writes) are recorded in an event trace.  An event is recorded
  only when the call returns; a call that raises records no event.
* The environment `Env` carries the data the collaborators would supply
  (the ledger document, the engine's batch stream, schema, telemetry) and
  optional injected exceptions for each fallible call inside
  `process_statement`, each carrying its `str(exc)`.  The two ledger
  updates that persist a FAILED status (the missing-sql_text update and
  the `except`-handler update) are modelled as succeeding: the claims
  under study concern exceptions raised by the engine, the object store,
  and the EXECUTING/COMPLETED ledger updates.
* Timestamps (`firestore.SERVER_TIMESTAMP`, `datetime.now`) are opaque;
  `created_at` is an opaque string supplied by the environment.
-/

/-- A pyarrow RecordBatch: `num_rows` and its column-buffer byte sizes. -/
structure Batch where
  rows : Nat
  buffers : List (Option Nat)
deriving DecidableEq, Repr

/-- Sum of the non-null buffer sizes of one batch (one table chunk). -/
def batchBytes (b : Batch) : Nat := (b.buffers.filterMap id).sum

/-- `_estimate_table_bytes` (worker.py lines 47-60): sums `buf.size` over
every non-None buffer of every chunk of every column of the table.  A
table built by `pa.Table.from_batches` has the batches as its chunks, so
this is the sum over the batches. -/
def estimate_table_bytes (t : List Batch) : Nat := (t.map batchBytes).sum

/-- `SIZE_THRESHOLD_BYTES = 256 * 1024 * 1024` (worker.py line 29). -/
def SIZE_THRESHOLD_BYTES : Nat := 256 * 1024 * 1024

/-- Python `f"{n:04d}"`: decimal digits left-padded with `0` to width 4. -/
def pad4 (n : Nat) : String :=
  let s := toString n
  if s.length < 4 then String.mk (List.replicate (4 - s.length) '0') ++ s else s

/-- `f"part_{part_index:04d}.parquet"` (worker.py lines 165, 179). -/
def partName (i : Nat) : String := "part_" ++ pad4 i ++ ".parquet"

/-- `f"gs://{bucket}/{statement_handle}/{part_name}"` (lines 166, 180). -/
def partPath (bucket handle : String) (i : Nat) : String :=
  "gs://" ++ bucket ++ "/" ++ handle ++ "/" ++ partName i

/-- `f"gs://{bucket}/{statement_handle}/manifest.json"` (line 210). -/
def manifestPath (bucket handle : String) : String :=
  "gs://" ++ bucket ++ "/" ++ handle ++ "/manifest.json"

/-- One schema column `{"name": ..., "type": ...}` (line 189). -/
structure Column where
  name : String
  type : String
deriving DecidableEq, Repr

/-- One entry of the manifest's `parts` list (lines 193-200). -/
structure PartEntry where
  path : String
  rows : Nat
  approx_size : Nat
deriving DecidableEq, Repr

/-- The manifest dict built at worker.py lines 192-209; its fields are
exactly the JSON object's keys. -/
structure Manifest where
  parts : List PartEntry
  total_parts : Nat
  total_rows : Nat
  total_size_estimate : Nat
  compression : String
  compression_level : Nat
  write_statistics : Bool
  columns : List Column
  created_at : String
deriving DecidableEq, Repr

/-- Job status values written to the Firestore document. -/
inductive Status where
  | QUEUED
  | EXECUTING
  | COMPLETED
  | FAILED
deriving DecidableEq, Repr

/-- The Firestore job document fields touched by `process_statement`. -/
structure JobDoc where
  sql_text : Option String
  status : Status
  error : Option String
  total_rows : Option Nat
  result_manifest : Option String
  total_size_estimate : Option Nat
  columns : Option (List Column)
  telemetry : Option String
deriving DecidableEq, Repr

/-- The three shapes of `doc_ref.update` payload issued by
`process_statement` (timestamps are opaque and omitted). -/
inductive LedgerUpdate where
  | toExecuting
  | toFailed (error : String)
  | toCompleted (total_rows : Nat) (result_manifest : String)
      (total_size_estimate : Nat) (columns : List Column) (telemetry : String)
deriving DecidableEq, Repr

/-- Merge semantics of `doc_ref.update`: only supplied fields change. -/
def applyUpdate (doc : JobDoc) : LedgerUpdate → JobDoc
  | .toExecuting => { doc with status := .EXECUTING }
  | .toFailed err => { doc with status := .FAILED, error := some err }
  | .toCompleted tr mp tse cols tel =>
      { doc with
        status := .COMPLETED,
        total_rows := some tr,
        result_manifest := some mp,
        total_size_estimate := some tse,
        columns := some cols,
        telemetry := some tel }

/-- Observable effects, recorded in order, one per completed call.
`objectDelete` is the object-store delete call; `process_statement`
never issues one, and the constructor exists so that can be stated. -/
inductive Event where
  | ledgerGet
  | ledgerUpdate (u : LedgerUpdate)
  | engineOpen
  | partWrite (path : String) (table : List Batch)
  | manifestWrite (path : String) (m : Manifest)
  | objectDelete (path : String)
deriving DecidableEq, Repr

/-- Collaborator data plus injected exceptions (each the `str(exc)` the
raised exception would stringify to).  `engineBatches` are the batches
the engine emits; if `engineError` is set the engine raises it when the
batch after the last emitted one is pulled.  `partWriteFailAt` makes the
object-store write of the part with that index raise. -/
structure Env where
  ledger : Option JobDoc
  engineBatches : List Batch
  engineError : Option String
  schemaColumns : List Column
  telemetry : String
  created_at : String
  failExecutingUpdate : Option String
  failEngineOpen : Option String
  partWriteFailAt : Option (Nat × String)
  failManifestWrite : Option String
  failCompletedUpdate : Option String
deriving DecidableEq, Repr

/-- Whether the object-store write of part `idx` is injected to raise. -/
def writeFails (failAt : Option (Nat × String)) (idx : Nat) : Option String :=
  match failAt with
  | some (i, msg) => if i = idx then some msg else none
  | none => none

/-- State of the accumulation loop at worker.py lines 149-152: the next
part index, the buffered batches and their row count, the recorded
`parts` list of `(filename, rows, approx_size)`, the running
`total_size_estimate` (line 139), and the events issued so far. -/
structure LoopState where
  part_index : Nat
  buffered_batches : List Batch
  buffered_rows : Nat
  parts : List (String × Nat × Nat)
  total_size_estimate : Nat
  events : List Event
deriving DecidableEq, Repr

/-- One iteration of `for batch in batches` (worker.py lines 154-174).
On an injected write failure the exception propagates with the events
issued so far. -/
def stepBatch (handle bucket : String) (failAt : Option (Nat × String))
    (st : LoopState) (batch : Batch) :
    Except (List Event × String) LoopState :=
  if SIZE_THRESHOLD_BYTES ≤ estimate_table_bytes (st.buffered_batches ++ [batch]) then
    match writeFails failAt st.part_index with
    | some msg => .error (st.events, msg)
    | none =>
        .ok { part_index := st.part_index + 1
              buffered_batches := []
              buffered_rows := 0
              parts := st.parts ++ [(partName st.part_index, st.buffered_rows + batch.rows,
                estimate_table_bytes (st.buffered_batches ++ [batch]))]
              total_size_estimate := st.total_size_estimate
                + estimate_table_bytes (st.buffered_batches ++ [batch])
              events := st.events ++ [.partWrite (partPath bucket handle st.part_index)
                (st.buffered_batches ++ [batch])] }
  else
    .ok { st with buffered_batches := st.buffered_batches ++ [batch],
                  buffered_rows := st.buffered_rows + batch.rows }

/-- The whole `for batch in batches` loop over the emitted batches. -/
def runBatches (handle bucket : String) (failAt : Option (Nat × String)) :
    LoopState → List Batch → Except (List Event × String) LoopState
  | st, [] => .ok st
  | st, b :: bs =>
      match stepBatch handle bucket failAt st b with
      | .error e => .error e
      | .ok st2 => runBatches handle bucket failAt st2 bs

/-- `if buffered_batches:` final flush (worker.py lines 176-184).  The
code neither resets the buffers nor bumps `part_index` here. -/
def drainRemainder (handle bucket : String) (failAt : Option (Nat × String))
    (st : LoopState) : Except (List Event × String) LoopState :=
  match st.buffered_batches with
  | [] => .ok st
  | _ :: _ =>
      match writeFails failAt st.part_index with
      | some msg => .error (st.events, msg)
      | none =>
          .ok { st with
                parts := st.parts ++ [(partName st.part_index, st.buffered_rows,
                  estimate_table_bytes st.buffered_batches)]
                total_size_estimate := st.total_size_estimate
                  + estimate_table_bytes st.buffered_batches
                events := st.events ++ [.partWrite (partPath bucket handle st.part_index)
                  st.buffered_batches] }

/-- The manifest dict literal at worker.py lines 192-209. -/
def buildManifest (handle bucket : String) (parts : List (String × Nat × Nat))
    (total_size_estimate : Nat) (columns : List Column) (created_at : String) :
    Manifest :=
  { parts := parts.map fun p =>
      { path := "gs://" ++ bucket ++ "/" ++ handle ++ "/" ++ p.1
        rows := p.2.1
        approx_size := p.2.2 }
    total_parts := parts.length
    total_rows := (parts.map fun p => p.2.1).sum
    total_size_estimate := total_size_estimate
    compression := "zstd"
    compression_level := 2
    write_statistics := false
    columns := columns
    created_at := created_at }

/-- The loop initialisation at worker.py lines 149-152 (the `.engineOpen`
event records that `opteryx.connect` and `execute_to_arrow_batches`
returned). -/
def initState : LoopState :=
  { part_index := 0, buffered_batches := [], buffered_rows := 0,
    parts := [], total_size_estimate := 0, events := [.engineOpen] }

/-- The body of the `try:` block (worker.py lines 141-232): open the
engine, run the accumulation loop, drain, build and write the manifest,
issue the COMPLETED ledger update.  Returns the events issued inside the
block, plus the manifest on success; an `.error` is the exception that
escapes to the `except` handler, with the events issued before it. -/
def runTry (handle bucket : String) (env : Env) :
    Except (List Event × String) (List Event × Manifest) :=
  match env.failEngineOpen with
  | some msg => .error ([.engineOpen], msg)
  | none =>
      match runBatches handle bucket env.partWriteFailAt initState env.engineBatches with
      | .error e => .error e
      | .ok st1 =>
          match env.engineError with
          | some msg => .error (st1.events, msg)
          | none =>
              match drainRemainder handle bucket env.partWriteFailAt st1 with
              | .error e => .error e
              | .ok st2 =>
                  let manifest := buildManifest handle bucket st2.parts
                    st2.total_size_estimate env.schemaColumns env.created_at
                  match env.failManifestWrite with
                  | some msg => .error (st2.events, msg)
                  | none =>
                      let evs := st2.events
                        ++ [.manifestWrite (manifestPath bucket handle) manifest]
                      match env.failCompletedUpdate with
                      | some msg => .error (evs, msg)
                      | none =>
                          .ok (evs ++ [.ledgerUpdate (.toCompleted manifest.total_rows
                                (manifestPath bucket handle) manifest.total_size_estimate
                                manifest.columns env.telemetry)], manifest)

/-- How a call to `process_statement` ends: normal return or a raised
exception (its `str(exc)`). -/
inductive Outcome where
  | ok
  | raised (error : String)
deriving DecidableEq, Repr

/-- One run of `process_statement`: its outcome, the full event trace
and the final state of the job's ledger document. -/
structure RunResult where
  outcome : Outcome
  events : List Event
  ledger : Option JobDoc
deriving DecidableEq, Repr

/-- Python `if not sql:` on `job.get("sql_text")`: absent or empty. -/
def sqlMissing : Option String → Bool
  | none => true
  | some s => s == ""

/-- `process_statement` (worker.py lines 95-245). -/
def process_statement (statement_handle bucket : String) (env : Env) :
    RunResult :=
  match env.ledger with
  | none =>
      { outcome := .raised ("No job found for handle: " ++ statement_handle)
        events := [.ledgerGet]
        ledger := none }
  | some job =>
      if sqlMissing job.sql_text then
        { outcome := .ok
          events := [.ledgerGet, .ledgerUpdate (.toFailed "missing sql_text")]
          ledger := some (applyUpdate job (.toFailed "missing sql_text")) }
      else
        match env.failExecutingUpdate with
        | some msg =>
            { outcome := .raised msg
              events := [.ledgerGet]
              ledger := some job }
        | none =>
            let execDoc := applyUpdate job .toExecuting
            match runTry statement_handle bucket env with
            | .error (evs, msg) =>
                { outcome := .raised msg
                  events := [.ledgerGet, .ledgerUpdate .toExecuting] ++ evs
                    ++ [.ledgerUpdate (.toFailed msg)]
                  ledger := some (applyUpdate execDoc (.toFailed msg)) }
            | .ok (evs, manifest) =>
                { outcome := .ok
                  events := [.ledgerGet, .ledgerUpdate .toExecuting] ++ evs
                  ledger := some (applyUpdate execDoc (.toCompleted manifest.total_rows
                    (manifestPath bucket statement_handle) manifest.total_size_estimate
                    manifest.columns env.telemetry)) }

/-- Paths of the parts whose object-store write returned, in order. -/
def partWritePaths (evs : List Event) : List String :=
  evs.filterMap fun e =>
    match e with
    | .partWrite p _ => some p
    | _ => none

/-- Tables of the parts whose object-store write returned, in order. -/
def partWriteTables (evs : List Event) : List (List Batch) :=
  evs.filterMap fun e =>
    match e with
    | .partWrite _ t => some t
    | _ => none

/-- Manifests whose object-store write returned, in order. -/
def manifestsWritten (evs : List Event) : List Manifest :=
  evs.filterMap fun e =>
    match e with
    | .manifestWrite _ m => some m
    | _ => none

def isManifestWrite : Event → Bool
  | .manifestWrite _ _ => true
  | _ => false

def isCompletedUpdate : Event → Bool
  | .ledgerUpdate (.toCompleted _ _ _ _ _) => true
  | _ => false

def isDelete : Event → Bool
  | .objectDelete _ => true
  | _ => false

/-- Sum of the recorded `rows` over a `parts` list. -/
def rowsSum (parts : List (String × Nat × Nat)) : Nat :=
  (parts.map fun p => p.2.1).sum

/-- Sum of the recorded `approx_size` over a `parts` list. -/
def approxSum (parts : List (String × Nat × Nat)) : Nat :=
  (parts.map fun p => p.2.2).sum

/-- The gs:// URI of a recorded part (worker.py line 195). -/
def pathOfPart (bucket handle : String) (p : String × Nat × Nat) : String :=
  "gs://" ++ bucket ++ "/" ++ handle ++ "/" ++ p.1

/-- Events that the accumulation loop can produce. -/
def benignEvent (e : Event) : Prop :=
  e = Event.engineOpen ∨ ∃ p t, e = Event.partWrite p t

/-- Invariant of the `for batch in batches` loop, relating the loop
state to the prefix of the engine's batches consumed so far. -/
structure LoopInv (handle bucket : String) (consumed : List Batch)
    (st : LoopState) : Prop where
  rows_buf : st.buffered_rows = (st.buffered_batches.map Batch.rows).sum
  rows_total : rowsSum st.parts + st.buffered_rows = (consumed.map Batch.rows).sum
  size_acc : st.total_size_estimate = approxSum st.parts
  names : st.parts.map Prod.fst = (List.range st.part_index).map partName
  len : st.parts.length = st.part_index
  pathsEv : partWritePaths st.events = st.parts.map (pathOfPart bucket handle)
  tablesEv : (partWriteTables st.events).flatten ++ st.buffered_batches = consumed
  sizes : ∀ p ∈ st.parts, SIZE_THRESHOLD_BYTES ≤ p.2.2
  kinds : ∀ e ∈ st.events, benignEvent e
  tablesNE : ∀ t ∈ partWriteTables st.events, t ≠ []

/-- What holds of the loop state after the final `if buffered_batches:`
flush, relative to the full emitted batch list. -/
structure DrainedInv (handle bucket : String) (batches : List Batch)
    (st : LoopState) : Prop where
  pathsEv : partWritePaths st.events = st.parts.map (pathOfPart bucket handle)
  kinds : ∀ e ∈ st.events, benignEvent e
  rows_total : rowsSum st.parts = (batches.map Batch.rows).sum
  size_acc : st.total_size_estimate = approxSum st.parts
  names : st.parts.map Prod.fst = (List.range st.parts.length).map partName
  tablesEv : (partWriteTables st.events).flatten = batches
  tablesNE : ∀ t ∈ partWriteTables st.events, t ≠ []
  sizes : ∀ i (hi : i + 1 < st.parts.length),
    SIZE_THRESHOLD_BYTES ≤ (st.parts.get ⟨i, Nat.lt_of_succ_lt hi⟩).2.2
  nonempty : batches ≠ [] → st.parts ≠ []

/-- Schema column used by the concrete runs below. -/
def colId : Column := { name := "id", type := "INTEGER" }

/-- A queued job carrying query text. -/
def jobQueued : JobDoc :=
  { sql_text := some "SELECT 1", status := .QUEUED, error := none,
    total_rows := none, result_manifest := none, total_size_estimate := none,
    columns := none, telemetry := none }

/-- A queued job whose `sql_text` field is absent. -/
def jobNoSql : JobDoc := { jobQueued with sql_text := none }

/-- A batch whose buffers alone exceed `SIZE_THRESHOLD_BYTES`. -/
def bigBatch : Batch := { rows := 10000, buffers := [some 314572800, none] }

/-- A small batch, far below the threshold. -/
def smallBatch : Batch := { rows := 5, buffers := [some 7, none] }

/-- A fault-free run: two batches, the first flushing on its own. -/
def baseEnv : Env :=
  { ledger := some jobQueued
    engineBatches := [bigBatch, smallBatch]
    engineError := none
    schemaColumns := [colId]
    telemetry := "telemetry"
    created_at := "2026-10-12T00:00:00+00:00"
    failExecutingUpdate := none
    failEngineOpen := none
    partWriteFailAt := none
    failManifestWrite := none
    failCompletedUpdate := none }

/-- The EXECUTING ledger update itself raises (worker.py line 131). -/
def envStep3Fail : Env :=
  { baseEnv with failExecutingUpdate := some "firestore deadline exceeded" }

/-- The engine raises after emitting one already-flushed batch. -/
def envEngineFail : Env :=
  { baseEnv with engineBatches := [bigBatch],
                 engineError := some "engine exploded" }

/-- The job exists but has no query text. -/
def envNoSql : Env := { baseEnv with ledger := some jobNoSql }

/-- No ledger record for the handle. -/
def envNotFound : Env := { baseEnv with ledger := none }

/-- The engine emits zero batches. -/
def envEmptyStream : Env := { baseEnv with engineBatches := [] }

@[simp]
theorem partWritePaths_nil : partWritePaths [] = [] := rfl

@[simp]
theorem partWritePaths_cons (e : Event) (evs : List Event) :
    partWritePaths (e :: evs) =
      (match e with | .partWrite p _ => [p] | _ => []) ++ partWritePaths evs := by
  cases e <;> simp [partWritePaths]

@[simp]
theorem partWritePaths_append (a b : List Event) :
    partWritePaths (a ++ b) = partWritePaths a ++ partWritePaths b := by
  simp [partWritePaths, List.filterMap_append]

@[simp]
theorem partWriteTables_nil : partWriteTables [] = [] := rfl

@[simp]
theorem partWriteTables_cons (e : Event) (evs : List Event) :
    partWriteTables (e :: evs) =
      (match e with | .partWrite _ t => [t] | _ => []) ++ partWriteTables evs := by
  cases e <;> simp [partWriteTables]

@[simp]
theorem partWriteTables_append (a b : List Event) :
    partWriteTables (a ++ b) = partWriteTables a ++ partWriteTables b := by
  simp [partWriteTables, List.filterMap_append]

@[simp]
theorem manifestsWritten_nil : manifestsWritten [] = [] := rfl

@[simp]
theorem manifestsWritten_cons (e : Event) (evs : List Event) :
    manifestsWritten (e :: evs) =
      (match e with | .manifestWrite _ m => [m] | _ => []) ++ manifestsWritten evs := by
  cases e <;> simp [manifestsWritten]

@[simp]
theorem manifestsWritten_append (a b : List Event) :
    manifestsWritten (a ++ b) = manifestsWritten a ++ manifestsWritten b := by
  simp [manifestsWritten, List.filterMap_append]

theorem partWriteTables_length (evs : List Event) :
    (partWriteTables evs).length = (partWritePaths evs).length := by
  induction evs with
  | nil => rfl
  | cons e evs ih => cases e <;> simp [ih]

theorem benign_no_manifest {E : List Event} (h : ∀ e ∈ E, benignEvent e) :
    manifestsWritten E = [] := by
  induction E with
  | nil => rfl
  | cons e evs ih =>
      have he := h e (by simp)
      rcases he with he | ⟨p, t, he⟩ <;>
        subst he <;> simp [ih fun x hx => h x (by simp [hx])]

theorem benign_not_manifestWrite {e : Event} (h : benignEvent e) :
    isManifestWrite e = false := by
  rcases h with h | ⟨p, t, h⟩ <;> subst h <;> rfl

theorem benign_not_completedUpdate {e : Event} (h : benignEvent e) :
    isCompletedUpdate e = false := by
  rcases h with h | ⟨p, t, h⟩ <;> subst h <;> rfl

theorem benign_not_delete {e : Event} (h : benignEvent e) :
    isDelete e = false := by
  rcases h with h | ⟨p, t, h⟩ <;> subst h <;> rfl

/-- A list with a unique marked element splits around it in one way. -/
theorem split_unique {α : Type} (P : α → Bool) :
    ∀ (A : List α) (e : α) (B pre post : List α) (f : α),
      (∀ x ∈ A, P x = false) → (∀ x ∈ B, P x = false) →
      P e = true → P f = true →
      A ++ e :: B = pre ++ f :: post → pre = A ∧ f = e ∧ post = B := by
  intro A
  induction A with
  | nil =>
      intro e B pre post f _ hB he hf heq
      cases pre with
      | nil =>
          simp only [List.nil_append, List.cons.injEq] at heq
          exact ⟨rfl, heq.1.symm, heq.2.symm⟩
      | cons p pre2 =>
          simp only [List.nil_append, List.cons_append, List.cons.injEq] at heq
          have hfB : f ∈ B := by rw [heq.2]; simp
          have := hB f hfB
          rw [hf] at this
          cases this
  | cons a A2 ih =>
      intro e B pre post f hA hB he hf heq
      cases pre with
      | nil =>
          simp only [List.cons_append, List.nil_append, List.cons.injEq] at heq
          have := hA a (by simp)
          rw [heq.1, hf] at this
          cases this
      | cons p pre2 =>
          simp only [List.cons_append, List.cons.injEq] at heq
          obtain ⟨h1, h2⟩ := heq
          obtain ⟨hp, hf2, hpost⟩ :=
            ih e B pre2 post f (fun x hx => hA x (by simp [hx])) hB he hf h2
          exact ⟨by rw [hp, h1], hf2, hpost⟩

theorem initState_inv (handle bucket : String) :
    LoopInv handle bucket [] initState := by
  constructor <;> simp [initState, rowsSum, approxSum, partWritePaths,
    partWriteTables, benignEvent]

theorem stepBatch_ok (handle bucket : String) (failAt : Option (Nat × String))
    (st st2 : LoopState) (b : Batch) (consumed : List Batch)
    (hinv : LoopInv handle bucket consumed st)
    (h : stepBatch handle bucket failAt st b = .ok st2) :
    LoopInv handle bucket (consumed ++ [b]) st2 := by
  unfold stepBatch at h
  by_cases hth : SIZE_THRESHOLD_BYTES ≤ estimate_table_bytes (st.buffered_batches ++ [b])
  · rw [if_pos hth] at h
    cases hw : writeFails failAt st.part_index with
    | some msg => rw [hw] at h; cases h
    | none =>
        rw [hw] at h
        cases h
        constructor
        · simp
        · simp only [rowsSum, List.map_append, List.sum_append, List.map_cons,
            List.map_nil, List.sum_cons, List.sum_nil]
          have := hinv.rows_total
          simp only [rowsSum] at this
          omega
        · have := hinv.size_acc
          simp only [approxSum, List.map_append, List.sum_append] at *
          simp [this]
        · simp [hinv.names, List.range_succ]
        · simp [hinv.len]
        · simp [hinv.pathsEv, pathOfPart, partPath]
        · simp only [partWriteTables_append, partWriteTables_cons]
          simp only [List.flatten_append, List.append_nil]
          have := hinv.tablesEv
          simp [← List.append_assoc, this]
        · intro p hp
          rcases List.mem_append.mp hp with hp | hp
          · exact hinv.sizes p hp
          · simp at hp; subst hp; exact hth
        · intro e he
          rcases List.mem_append.mp he with he | he
          · exact hinv.kinds e he
          · simp at he; subst he; exact Or.inr ⟨_, _, rfl⟩
        · intro t ht
          simp only [partWriteTables_append, partWriteTables_cons] at ht
          rcases List.mem_append.mp ht with ht | ht
          · exact hinv.tablesNE t ht
          · simp at ht; subst ht; simp
  · rw [if_neg hth] at h
    cases h
    constructor
    · simp [hinv.rows_buf]
    · have := hinv.rows_total
      simp only [rowsSum, List.map_append, List.sum_append] at *
      simp only [List.map_cons, List.map_nil, List.sum_cons, List.sum_nil]
      omega
    · exact hinv.size_acc
    · exact hinv.names
    · exact hinv.len
    · exact hinv.pathsEv
    · simp [← List.append_assoc, hinv.tablesEv]
    · exact hinv.sizes
    · exact hinv.kinds
    · exact hinv.tablesNE

theorem stepBatch_error (handle bucket : String) (failAt : Option (Nat × String))
    (st : LoopState) (b : Batch) (evs : List Event) (msg : String)
    (h : stepBatch handle bucket failAt st b = .error (evs, msg)) :
    evs = st.events := by
  unfold stepBatch at h
  by_cases hth : SIZE_THRESHOLD_BYTES ≤ estimate_table_bytes (st.buffered_batches ++ [b])
  · rw [if_pos hth] at h
    cases hw : writeFails failAt st.part_index with
    | some m2 => rw [hw] at h; cases h; rfl
    | none => rw [hw] at h; cases h
  · rw [if_neg hth] at h; cases h

theorem runBatches_ok (handle bucket : String) (failAt : Option (Nat × String)) :
    ∀ (bs : List Batch) (st st1 : LoopState) (consumed : List Batch),
      LoopInv handle bucket consumed st →
      runBatches handle bucket failAt st bs = .ok st1 →
      LoopInv handle bucket (consumed ++ bs) st1 := by
  intro bs
  induction bs with
  | nil =>
      intro st st1 consumed hinv h
      unfold runBatches at h
      cases h
      simpa using hinv
  | cons b bs ih =>
      intro st st1 consumed hinv h
      unfold runBatches at h
      cases hstep : stepBatch handle bucket failAt st b with
      | error e => rw [hstep] at h; cases h
      | ok st2 =>
          rw [hstep] at h
          have hinv2 := stepBatch_ok handle bucket failAt st st2 b consumed hinv hstep
          have := ih st2 st1 (consumed ++ [b]) hinv2 h
          simpa using this

theorem runBatches_error (handle bucket : String) (failAt : Option (Nat × String)) :
    ∀ (bs : List Batch) (st : LoopState) (consumed : List Batch)
      (evs : List Event) (msg : String),
      LoopInv handle bucket consumed st →
      runBatches handle bucket failAt st bs = .error (evs, msg) →
      ∃ consumed2 st2, LoopInv handle bucket consumed2 st2 ∧ evs = st2.events := by
  intro bs
  induction bs with
  | nil =>
      intro st consumed evs msg _ h
      unfold runBatches at h
      cases h
  | cons b bs ih =>
      intro st consumed evs msg hinv h
      unfold runBatches at h
      cases hstep : stepBatch handle bucket failAt st b with
      | error e =>
          rw [hstep] at h
          cases h
          exact ⟨consumed, st, hinv, stepBatch_error handle bucket failAt st b _ _ hstep⟩
      | ok st2 =>
          rw [hstep] at h
          exact ih st2 (consumed ++ [b]) evs msg
            (stepBatch_ok handle bucket failAt st st2 b consumed hinv hstep) h

theorem drainRemainder_error (handle bucket : String)
    (failAt : Option (Nat × String)) (st : LoopState)
    (evs : List Event) (msg : String)
    (h : drainRemainder handle bucket failAt st = .error (evs, msg)) :
    evs = st.events := by
  unfold drainRemainder at h
  cases hb : st.buffered_batches with
  | nil => rw [hb] at h; cases h
  | cons x xs =>
      rw [hb] at h
      cases hw : writeFails failAt st.part_index with
      | some m2 => rw [hw] at h; cases h; rfl
      | none => rw [hw] at h; cases h

theorem drain_inv (handle bucket : String) (failAt : Option (Nat × String))
    (st st2 : LoopState) (consumed : List Batch)
    (hinv : LoopInv handle bucket consumed st)
    (h : drainRemainder handle bucket failAt st = .ok st2) :
    DrainedInv handle bucket consumed st2 := by
  unfold drainRemainder at h
  cases hb : st.buffered_batches with
  | nil =>
      rw [hb] at h
      cases h
      have hbr : st.buffered_rows = 0 := by
        have := hinv.rows_buf; rw [hb] at this; simpa using this
      have htab : (partWriteTables st.events).flatten = consumed := by
        have := hinv.tablesEv; rw [hb] at this; simpa using this
      constructor
      · exact hinv.pathsEv
      · exact hinv.kinds
      · have := hinv.rows_total; omega
      · exact hinv.size_acc
      · rw [hinv.len]; exact hinv.names
      · exact htab
      · exact hinv.tablesNE
      · intro i hi
        exact hinv.sizes _ (List.get_mem _ _ _)
      · intro hc hp
        have hl : (partWritePaths st.events).length = 0 := by
          rw [hinv.pathsEv, hp]; rfl
        have ht : (partWriteTables st.events).length = 0 := by
          rw [partWriteTables_length]; exact hl
        have : partWriteTables st.events = [] := List.length_eq_zero.mp ht
        rw [this] at htab
        exact hc htab.symm
  | cons x xs =>
      rw [hb] at h
      cases hw : writeFails failAt st.part_index with
      | some m2 => rw [hw] at h; cases h
      | none =>
          rw [hw] at h
          cases h
          have htab : (partWriteTables st.events).flatten ++ (x :: xs) = consumed := by
            have := hinv.tablesEv; rw [hb] at this; exact this
          constructor
          · simp [hinv.pathsEv, pathOfPart, partPath]
          · intro e he
            rcases List.mem_append.mp he with he | he
            · exact hinv.kinds e he
            · simp at he; subst he; exact Or.inr ⟨_, _, rfl⟩
          · have := hinv.rows_total
            simp only [rowsSum, List.map_append, List.sum_append, List.map_cons,
              List.map_nil, List.sum_cons, List.sum_nil] at *
            omega
          · have := hinv.size_acc
            simp only [approxSum, List.map_append, List.sum_append] at *
            simp [this]
          · simp [hinv.names, hinv.len, List.range_succ]
          · simp only [partWriteTables_append, partWriteTables_cons,
              List.flatten_append]
            simpa using htab
          · intro t ht
            simp only [partWriteTables_append, partWriteTables_cons] at ht
            rcases List.mem_append.mp ht with ht | ht
            · exact hinv.tablesNE t ht
            · simp at ht; subst ht; simp
          · intro i hi
            simp only [List.length_append, List.length_cons, List.length_nil] at hi
            have hlt : i < st.parts.length := by omega
            simp only [List.get_eq_getElem]
            rw [List.getElem_append_left hlt]
            exact hinv.sizes _ (List.getElem_mem _)
          · intro _
            simp

theorem map_pathOfPart (bucket handle : String) (ps : List (String × Nat × Nat)) :
    ps.map (pathOfPart bucket handle) =
      (ps.map Prod.fst).map
        (fun s => "gs://" ++ bucket ++ "/" ++ handle ++ "/" ++ s) := by
  simp only [List.map_map]
  rfl

theorem map_partName_range (bucket handle : String) (n : Nat) :
    ((List.range n).map partName).map
        (fun s => "gs://" ++ bucket ++ "/" ++ handle ++ "/" ++ s) =
      (List.range n).map (partPath bucket handle) := by
  simp only [List.map_map]
  rfl

theorem runTry_ok_spec (handle bucket : String) (env : Env)
    (evs : List Event) (m : Manifest)
    (h : runTry handle bucket env = .ok (evs, m)) :
    ∃ E : List Event,
      evs = E ++ [Event.manifestWrite (manifestPath bucket handle) m,
        Event.ledgerUpdate (.toCompleted m.total_rows (manifestPath bucket handle)
          m.total_size_estimate m.columns env.telemetry)] ∧
      (∀ e ∈ E, benignEvent e) ∧
      partWritePaths E = m.parts.map PartEntry.path ∧
      (partWriteTables E).flatten = env.engineBatches ∧
      (∀ t ∈ partWriteTables E, t ≠ []) ∧
      m.parts.map PartEntry.path =
        (List.range m.parts.length).map (partPath bucket handle) ∧
      m.total_parts = m.parts.length ∧
      m.total_rows = (m.parts.map PartEntry.rows).sum ∧
      m.total_size_estimate = (m.parts.map PartEntry.approx_size).sum ∧
      m.compression = "zstd" ∧
      m.compression_level = 2 ∧
      m.write_statistics = false ∧
      m.columns = env.schemaColumns ∧
      (m.parts.map PartEntry.rows).sum = (env.engineBatches.map Batch.rows).sum ∧
      (∀ i (hi : i + 1 < m.parts.length),
        SIZE_THRESHOLD_BYTES ≤ (m.parts.get ⟨i, Nat.lt_of_succ_lt hi⟩).approx_size) ∧
      (env.engineBatches ≠ [] → m.parts ≠ []) := by
  unfold runTry at h
  cases heo : env.failEngineOpen with
  | some msg => rw [heo] at h; cases h
  | none =>
  simp only [heo] at h
  cases hrb : runBatches handle bucket env.partWriteFailAt initState env.engineBatches with
  | error e => rw [hrb] at h; cases h
  | ok st1 =>
  simp only [hrb] at h
  have hinv1 : LoopInv handle bucket env.engineBatches st1 := by
    have := runBatches_ok handle bucket env.partWriteFailAt env.engineBatches
      initState st1 [] (initState_inv handle bucket) hrb
    simpa using this
  cases herr : env.engineError with
  | some msg => rw [herr] at h; cases h
  | none =>
  simp only [herr] at h
  cases hdr : drainRemainder handle bucket env.partWriteFailAt st1 with
  | error e => rw [hdr] at h; cases h
  | ok st2 =>
  simp only [hdr] at h
  have dinv := drain_inv handle bucket env.partWriteFailAt st1 st2
    env.engineBatches hinv1 hdr
  cases hmw : env.failManifestWrite with
  | some msg => rw [hmw] at h; cases h
  | none =>
  simp only [hmw] at h
  cases hcu : env.failCompletedUpdate with
  | some msg => rw [hcu] at h; cases h
  | none =>
  simp only [hcu] at h
  cases h
  refine ⟨st2.events, ?_, dinv.kinds, ?_, dinv.tablesEv, dinv.tablesNE,
    ?_, ?_, ?_, ?_, rfl, rfl, rfl, rfl, ?_, ?_, ?_⟩
  · simp [buildManifest]
  · rw [dinv.pathsEv]
    simp only [buildManifest, List.map_map]
    rfl
  · have h1 : (buildManifest handle bucket st2.parts st2.total_size_estimate
        env.schemaColumns env.created_at).parts.map PartEntry.path =
        st2.parts.map (pathOfPart bucket handle) := by
      simp only [buildManifest, List.map_map]
      rfl
    have h2 : (buildManifest handle bucket st2.parts st2.total_size_estimate
        env.schemaColumns env.created_at).parts.length = st2.parts.length := by
      simp [buildManifest]
    rw [h1, h2, map_pathOfPart, dinv.names, map_partName_range]
  · simp [buildManifest]
  · simp only [buildManifest, List.map_map]
    rfl
  · have : (st2.parts.map fun p => p.2.2).sum = approxSum st2.parts := rfl
    simp only [buildManifest, List.map_map]
    rw [← dinv.size_acc] at this
    exact this.symm ▸ rfl
  · have h1 : ((buildManifest handle bucket st2.parts st2.total_size_estimate
        env.schemaColumns env.created_at).parts.map PartEntry.rows).sum =
        rowsSum st2.parts := by
      simp only [buildManifest, List.map_map, rowsSum]
      rfl
    rw [h1, dinv.rows_total]
  · intro i hi
    have hlen : (buildManifest handle bucket st2.parts st2.total_size_estimate
        env.schemaColumns env.created_at).parts.length = st2.parts.length := by
      simp [buildManifest]
    have hi2 : i + 1 < st2.parts.length := by rw [← hlen]; exact hi
    have := dinv.sizes i hi2
    simp only [buildManifest, List.get_eq_getElem, List.getElem_map]
    simp only [List.get_eq_getElem] at this
    exact this
  · intro hne
    have := dinv.nonempty hne
    simp only [buildManifest, ne_eq, List.map_eq_nil_iff]
    intro hc
    exact this hc

theorem runTry_error_spec (handle bucket : String) (env : Env)
    (evs : List Event) (msg : String)
    (h : runTry handle bucket env = .error (evs, msg)) :
    (∀ e ∈ evs, benignEvent e) ∨
    (∃ E mm, evs = E ++ [Event.manifestWrite (manifestPath bucket handle) mm] ∧
      (∀ e ∈ E, benignEvent e) ∧
      mm.parts.map PartEntry.path = partWritePaths E) := by
  unfold runTry at h
  cases heo : env.failEngineOpen with
  | some m2 =>
      rw [heo] at h
      cases h
      left
      intro e he
      simp at he
      subst he
      exact Or.inl rfl
  | none =>
  simp only [heo] at h
  cases hrb : runBatches handle bucket env.partWriteFailAt initState env.engineBatches with
  | error e2 =>
      rw [hrb] at h
      cases h
      obtain ⟨c2, st2, hinv2, hevs⟩ := runBatches_error handle bucket
        env.partWriteFailAt env.engineBatches initState [] evs msg
        (initState_inv handle bucket) hrb
      left
      rw [hevs]
      exact hinv2.kinds
  | ok st1 =>
  simp only [hrb] at h
  have hinv1 : LoopInv handle bucket env.engineBatches st1 := by
    have := runBatches_ok handle bucket env.partWriteFailAt env.engineBatches
      initState st1 [] (initState_inv handle bucket) hrb
    simpa using this
  cases herr : env.engineError with
  | some m2 =>
      rw [herr] at h
      cases h
      left
      exact hinv1.kinds
  | none =>
  simp only [herr] at h
  cases hdr : drainRemainder handle bucket env.partWriteFailAt st1 with
  | error e2 =>
      rw [hdr] at h
      cases h
      have := drainRemainder_error handle bucket env.partWriteFailAt st1 evs msg hdr
      left
      rw [this]
      exact hinv1.kinds
  | ok st2 =>
  simp only [hdr] at h
  have dinv := drain_inv handle bucket env.partWriteFailAt st1 st2
    env.engineBatches hinv1 hdr
  cases hmw : env.failManifestWrite with
  | some m2 =>
      rw [hmw] at h
      cases h
      left
      exact dinv.kinds
  | none =>
  simp only [hmw] at h
  cases hcu : env.failCompletedUpdate with
  | some m2 =>
      rw [hcu] at h
      cases h
      right
      refine ⟨st2.events, _, rfl, dinv.kinds, ?_⟩
      rw [dinv.pathsEv]
      simp only [buildManifest, List.map_map]
      rfl
  | none =>
      rw [hcu] at h
      cases h

theorem process_ok_eq (h b : String) (env : Env) (job : JobDoc)
    (hled : env.ledger = some job) (hsql : sqlMissing job.sql_text = false)
    (hex : env.failExecutingUpdate = none)
    (evs : List Event) (m : Manifest)
    (htry : runTry h b env = .ok (evs, m)) :
    process_statement h b env =
      { outcome := .ok
        events := [Event.ledgerGet, Event.ledgerUpdate .toExecuting] ++ evs
        ledger := some (applyUpdate (applyUpdate job .toExecuting)
          (.toCompleted m.total_rows (manifestPath b h) m.total_size_estimate
            m.columns env.telemetry)) } := by
  simp [process_statement, hled, hsql, hex, htry]

theorem process_err_eq (h b : String) (env : Env) (job : JobDoc)
    (hled : env.ledger = some job) (hsql : sqlMissing job.sql_text = false)
    (hex : env.failExecutingUpdate = none)
    (evs : List Event) (msg : String)
    (htry : runTry h b env = .error (evs, msg)) :
    process_statement h b env =
      { outcome := .raised msg
        events := [Event.ledgerGet, Event.ledgerUpdate .toExecuting] ++ evs
          ++ [Event.ledgerUpdate (.toFailed msg)]
        ledger := some (applyUpdate (applyUpdate job .toExecuting) (.toFailed msg)) } := by
  simp [process_statement, hled, hsql, hex, htry]

theorem process_ok_destruct (h b : String) (env : Env) (job : JobDoc)
    (hled : env.ledger = some job) (hsql : sqlMissing job.sql_text = false)
    (hok : (process_statement h b env).outcome = .ok) :
    ∃ evs m, runTry h b env = .ok (evs, m) ∧
      process_statement h b env =
        { outcome := .ok
          events := [Event.ledgerGet, Event.ledgerUpdate .toExecuting] ++ evs
          ledger := some (applyUpdate (applyUpdate job .toExecuting)
            (.toCompleted m.total_rows (manifestPath b h) m.total_size_estimate
              m.columns env.telemetry)) } := by
  cases hex : env.failExecutingUpdate with
  | some msg =>
      exfalso
      simp [process_statement, hled, hsql, hex] at hok
  | none =>
      cases htry : runTry h b env with
      | error e2 =>
          exfalso
          obtain ⟨evs, msg⟩ := e2
          simp [process_statement, hled, hsql, hex, htry] at hok
      | ok p =>
          obtain ⟨evs, m⟩ := p
          exact ⟨evs, m, rfl, process_ok_eq h b env job hled hsql hex evs m htry⟩

/-- C4: for every job whose stored query text is absent or empty,
`process_statement` updates the ledger record to FAILED with an error
naming the missing field (`"missing sql_text"`), returns normally (no
exception), and — the trace being exactly the fetch and that one update —
performs no engine or object-store call. -/
theorem claim_C4 (h b : String) (env : Env) (job : JobDoc)
    (hled : env.ledger = some job) (hsql : sqlMissing job.sql_text = true) :
    (process_statement h b env).outcome = .ok ∧
    (process_statement h b env).events =
      [Event.ledgerGet, Event.ledgerUpdate (.toFailed "missing sql_text")] ∧
    (process_statement h b env).ledger =
      some { job with status := .FAILED, error := some "missing sql_text" } := by
  simp [process_statement, hled, hsql, applyUpdate]

/-- Witness for C4 at a concrete job lacking `sql_text`. -/
theorem claim_C4_witness :
    (envNoSql.ledger = some jobNoSql ∧ sqlMissing jobNoSql.sql_text = true) ∧
    ((process_statement "job-1" "bkt" envNoSql).outcome = .ok ∧
     (process_statement "job-1" "bkt" envNoSql).events =
       [Event.ledgerGet, Event.ledgerUpdate (.toFailed "missing sql_text")] ∧
     (process_statement "job-1" "bkt" envNoSql).ledger =
       some { jobNoSql with status := .FAILED, error := some "missing sql_text" }) :=
  ⟨⟨rfl, rfl⟩, claim_C4 "job-1" "bkt" envNoSql jobNoSql rfl rfl⟩

/-- C5: for a handle with no ledger record, `process_statement` raises
the not-found error, and the trace is exactly the failed fetch: no
ledger mutation, no engine call, no object-store call. -/
theorem claim_C5 (h b : String) (env : Env) (hled : env.ledger = none) :
    (process_statement h b env).outcome =
      .raised ("No job found for handle: " ++ h) ∧
    (process_statement h b env).events = [Event.ledgerGet] ∧
    (process_statement h b env).ledger = none := by
  simp [process_statement, hled]

/-- Witness for C5 at a concrete absent record. -/
theorem claim_C5_witness :
    (envNotFound.ledger = none) ∧
    ((process_statement "job-1" "bkt" envNotFound).outcome =
      .raised ("No job found for handle: " ++ "job-1") ∧
     (process_statement "job-1" "bkt" envNotFound).events = [Event.ledgerGet] ∧
     (process_statement "job-1" "bkt" envNotFound).ledger = none) :=
  ⟨rfl, claim_C5 "job-1" "bkt" envNotFound rfl⟩

/-- C2: on every successful execution (job present, query text present,
normal return), the sum of the per-part row counts recorded in the
written manifest equals the total number of rows emitted by the engine
across all batches. -/
theorem claim_C2 (h b : String) (env : Env) (job : JobDoc)
    (hled : env.ledger = some job) (hsql : sqlMissing job.sql_text = false)
    (hok : (process_statement h b env).outcome = .ok) :
    ∀ m ∈ manifestsWritten (process_statement h b env).events,
      (m.parts.map PartEntry.rows).sum = (env.engineBatches.map Batch.rows).sum := by
  obtain ⟨evs, m, htry, heq⟩ := process_ok_destruct h b env job hled hsql hok
  obtain ⟨E, hevs, hbenign, hpaths, htab, htabne, hpr, htp, htr, hts, hcz,
    hcl, hws, hcols, hsum, hsz, hne⟩ := runTry_ok_spec h b env evs m htry
  intro m2 hm2
  rw [heq] at hm2
  subst hevs
  simp only [manifestsWritten_append, manifestsWritten_cons,
    benign_no_manifest hbenign] at hm2
  simp at hm2
  subst hm2
  exact hsum

/-- Witness for C2 at a concrete two-batch fault-free run. -/
theorem claim_C2_witness :
    (baseEnv.ledger = some jobQueued ∧ sqlMissing jobQueued.sql_text = false ∧
     (process_statement "job-1" "bkt" baseEnv).outcome = .ok) ∧
    (∀ m ∈ manifestsWritten (process_statement "job-1" "bkt" baseEnv).events,
      (m.parts.map PartEntry.rows).sum =
        (baseEnv.engineBatches.map Batch.rows).sum) :=
  ⟨⟨rfl, rfl, rfl⟩, claim_C2 "job-1" "bkt" baseEnv jobQueued rfl rfl rfl⟩

/-- C3: on every successful execution the part-write paths are exactly
`gs://{bucket}/{handle}/part_0000.parquet`, `part_0001.parquet`, … in
emission order — a contiguous zero-based 4-digit-padded index sequence
with no gaps or repeats — and the manifest is written at
`gs://{bucket}/{handle}/manifest.json`. -/
theorem claim_C3 (h b : String) (env : Env) (job : JobDoc)
    (hled : env.ledger = some job) (hsql : sqlMissing job.sql_text = false)
    (hok : (process_statement h b env).outcome = .ok) :
    partWritePaths (process_statement h b env).events =
      (List.range (partWritePaths (process_statement h b env).events).length).map
        (partPath b h) ∧
    ∃ m, Event.manifestWrite (manifestPath b h) m ∈
      (process_statement h b env).events := by
  obtain ⟨evs, m, htry, heq⟩ := process_ok_destruct h b env job hled hsql hok
  obtain ⟨E, hevs, hbenign, hpaths, htab, htabne, hpr, htp, htr, hts, hcz,
    hcl, hws, hcols, hsum, hsz, hne⟩ := runTry_ok_spec h b env evs m htry
  rw [heq]
  subst hevs
  constructor
  · simp only [partWritePaths_append, partWritePaths_cons]
    simp only [List.nil_append, List.append_nil]
    have hlen : (partWritePaths E).length = m.parts.length := by
      rw [hpaths, List.length_map]
    rw [hpaths, hpr, ← hlen]
    simp [hlen]
  · exact ⟨m, by simp⟩

/-- Witness for C3 at a concrete two-batch fault-free run. -/
theorem claim_C3_witness :
    (baseEnv.ledger = some jobQueued ∧ sqlMissing jobQueued.sql_text = false ∧
     (process_statement "job-1" "bkt" baseEnv).outcome = .ok) ∧
    (partWritePaths (process_statement "job-1" "bkt" baseEnv).events =
      (List.range (partWritePaths
        (process_statement "job-1" "bkt" baseEnv).events).length).map
          (partPath "bkt" "job-1") ∧
     ∃ m, Event.manifestWrite (manifestPath "bkt" "job-1") m ∈
       (process_statement "job-1" "bkt" baseEnv).events) :=
  ⟨⟨rfl, rfl, rfl⟩, claim_C3 "job-1" "bkt" baseEnv jobQueued rfl rfl rfl⟩

/-- C6: on every successful execution the written manifest (whose fields
are exactly `parts`, `total_parts`, `total_rows`, `total_size_estimate`,
`compression`, `compression_level`, `write_statistics`, `columns`,
`created_at` — the fields of `Manifest`) has `total_parts` equal to the
number of parts, `total_rows` equal to the sum of the parts' `rows`,
`total_size_estimate` equal to the sum of the parts' `approx_size`,
compression `"zstd"` at level 2, and `write_statistics` false. -/
theorem claim_C6 (h b : String) (env : Env) (job : JobDoc)
    (hled : env.ledger = some job) (hsql : sqlMissing job.sql_text = false)
    (hok : (process_statement h b env).outcome = .ok) :
    ∀ m ∈ manifestsWritten (process_statement h b env).events,
      m.total_parts = m.parts.length ∧
      m.total_rows = (m.parts.map PartEntry.rows).sum ∧
      m.total_size_estimate = (m.parts.map PartEntry.approx_size).sum ∧
      m.compression = "zstd" ∧
      m.compression_level = 2 ∧
      m.write_statistics = false := by
  obtain ⟨evs, m, htry, heq⟩ := process_ok_destruct h b env job hled hsql hok
  obtain ⟨E, hevs, hbenign, hpaths, htab, htabne, hpr, htp, htr, hts, hcz,
    hcl, hws, hcols, hsum, hsz, hne⟩ := runTry_ok_spec h b env evs m htry
  intro m2 hm2
  rw [heq] at hm2
  subst hevs
  simp only [manifestsWritten_append, manifestsWritten_cons,
    benign_no_manifest hbenign] at hm2
  simp at hm2
  subst hm2
  exact ⟨htp, htr, hts, hcz, hcl, hws⟩

/-- Witness for C6 at a concrete two-batch fault-free run. -/
theorem claim_C6_witness :
    (baseEnv.ledger = some jobQueued ∧ sqlMissing jobQueued.sql_text = false ∧
     (process_statement "job-1" "bkt" baseEnv).outcome = .ok) ∧
    (∀ m ∈ manifestsWritten (process_statement "job-1" "bkt" baseEnv).events,
      m.total_parts = m.parts.length ∧
      m.total_rows = (m.parts.map PartEntry.rows).sum ∧
      m.total_size_estimate = (m.parts.map PartEntry.approx_size).sum ∧
      m.compression = "zstd" ∧
      m.compression_level = 2 ∧
      m.write_statistics = false) :=
  ⟨⟨rfl, rfl, rfl⟩, claim_C6 "job-1" "bkt" baseEnv jobQueued rfl rfl rfl⟩

/-- C7: on every successful execution, every written part except
possibly the last has recorded `approx_size ≥ SIZE_THRESHOLD_BYTES`
(256 MiB); a non-empty batch stream always yields at least one part (the
drain remainder becomes exactly one part even when it never reaches the
threshold); and the tables written, concatenated in order, are exactly
the emitted batches — batches are never split across parts, so a single
batch exceeding the threshold alone becomes exactly one (non-empty)
part. -/
theorem claim_C7 (h b : String) (env : Env) (job : JobDoc)
    (hled : env.ledger = some job) (hsql : sqlMissing job.sql_text = false)
    (hok : (process_statement h b env).outcome = .ok) :
    (∀ m ∈ manifestsWritten (process_statement h b env).events,
      (∀ i (hi : i + 1 < m.parts.length),
        SIZE_THRESHOLD_BYTES ≤ (m.parts.get ⟨i, Nat.lt_of_succ_lt hi⟩).approx_size) ∧
      (env.engineBatches ≠ [] → m.parts ≠ [])) ∧
    (partWriteTables (process_statement h b env).events).flatten =
      env.engineBatches ∧
    (∀ t ∈ partWriteTables (process_statement h b env).events, t ≠ []) := by
  obtain ⟨evs, m, htry, heq⟩ := process_ok_destruct h b env job hled hsql hok
  obtain ⟨E, hevs, hbenign, hpaths, htab, htabne, hpr, htp, htr, hts, hcz,
    hcl, hws, hcols, hsum, hsz, hne⟩ := runTry_ok_spec h b env evs m htry
  rw [heq]
  subst hevs
  refine ⟨?_, ?_, ?_⟩
  · intro m2 hm2
    simp only [manifestsWritten_append, manifestsWritten_cons,
      benign_no_manifest hbenign] at hm2
    simp at hm2
    subst hm2
    exact ⟨hsz, hne⟩
  · simp only [partWriteTables_append, partWriteTables_cons]
    simpa using htab
  · intro t ht
    simp only [partWriteTables_append, partWriteTables_cons,
      partWriteTables_nil, List.nil_append, List.append_nil] at ht
    exact htabne t ht

/-- Witness for C7 at a concrete two-batch fault-free run. -/
theorem claim_C7_witness :
    (baseEnv.ledger = some jobQueued ∧ sqlMissing jobQueued.sql_text = false ∧
     (process_statement "job-1" "bkt" baseEnv).outcome = .ok) ∧
    ((∀ m ∈ manifestsWritten (process_statement "job-1" "bkt" baseEnv).events,
      (∀ i (hi : i + 1 < m.parts.length),
        SIZE_THRESHOLD_BYTES ≤ (m.parts.get ⟨i, Nat.lt_of_succ_lt hi⟩).approx_size) ∧
      (baseEnv.engineBatches ≠ [] → m.parts ≠ [])) ∧
    (partWriteTables (process_statement "job-1" "bkt" baseEnv).events).flatten =
      baseEnv.engineBatches ∧
    (∀ t ∈ partWriteTables (process_statement "job-1" "bkt" baseEnv).events,
      t ≠ [])) :=
  ⟨⟨rfl, rfl, rfl⟩, claim_C7 "job-1" "bkt" baseEnv jobQueued rfl rfl rfl⟩

/-- C9: a job with query text whose engine stream emits zero batches
(and no injected failures) completes successfully: no part is written,
the manifest is still written with `total_parts = 0` and
`total_rows = 0`, and the ledger record ends COMPLETED with
`total_rows = 0`. -/
theorem claim_C9 (h b : String) (env : Env) (job : JobDoc)
    (hled : env.ledger = some job) (hsql : sqlMissing job.sql_text = false)
    (hex : env.failExecutingUpdate = none) (heo : env.failEngineOpen = none)
    (hbat : env.engineBatches = []) (herr : env.engineError = none)
    (hmw : env.failManifestWrite = none) (hcu : env.failCompletedUpdate = none) :
    (process_statement h b env).outcome = .ok ∧
    partWritePaths (process_statement h b env).events = [] ∧
    (∃ m, Event.manifestWrite (manifestPath b h) m ∈
        (process_statement h b env).events ∧
      m.total_parts = 0 ∧ m.total_rows = 0) ∧
    (∃ d, (process_statement h b env).ledger = some d ∧
      d.status = .COMPLETED ∧ d.total_rows = some 0) := by
  have htry : runTry h b env = .ok
      ([Event.engineOpen,
        Event.manifestWrite (manifestPath b h)
          (buildManifest h b [] 0 env.schemaColumns env.created_at),
        Event.ledgerUpdate (.toCompleted 0 (manifestPath b h) 0
          env.schemaColumns env.telemetry)],
       buildManifest h b [] 0 env.schemaColumns env.created_at) := by
    unfold runTry
    simp only [heo, hbat, hmw, hcu, herr]
    simp [runBatches, drainRemainder, initState, buildManifest]
  have heq := process_ok_eq h b env job hled hsql hex _ _ htry
  rw [heq]
  refine ⟨rfl, by simp,
    ⟨buildManifest h b [] 0 env.schemaColumns env.created_at, by simp,
      by simp [buildManifest], by simp [buildManifest]⟩,
    ⟨_, rfl, ?_, ?_⟩⟩
  · simp [buildManifest, applyUpdate]
  · simp [buildManifest, applyUpdate]

/-- Witness for C9 at a concrete empty-stream run. -/
theorem claim_C9_witness :
    (envEmptyStream.ledger = some jobQueued ∧
     sqlMissing jobQueued.sql_text = false ∧
     envEmptyStream.failExecutingUpdate = none ∧
     envEmptyStream.failEngineOpen = none ∧
     envEmptyStream.engineBatches = [] ∧
     envEmptyStream.engineError = none ∧
     envEmptyStream.failManifestWrite = none ∧
     envEmptyStream.failCompletedUpdate = none) ∧
    ((process_statement "job-1" "bkt" envEmptyStream).outcome = .ok ∧
     partWritePaths (process_statement "job-1" "bkt" envEmptyStream).events = [] ∧
     (∃ m, Event.manifestWrite (manifestPath "bkt" "job-1") m ∈
         (process_statement "job-1" "bkt" envEmptyStream).events ∧
       m.total_parts = 0 ∧ m.total_rows = 0) ∧
     (∃ d, (process_statement "job-1" "bkt" envEmptyStream).ledger = some d ∧
       d.status = .COMPLETED ∧ d.total_rows = some 0)) :=
  ⟨⟨rfl, rfl, rfl, rfl, rfl, rfl, rfl, rfl⟩,
   claim_C9 "job-1" "bkt" envEmptyStream jobQueued rfl rfl rfl rfl rfl rfl rfl rfl⟩

/-- C8: every run that reaches the EXECUTING transition (the trace
records the EXECUTING ledger update returning) ends with the ledger
record in exactly one terminal status, COMPLETED or FAILED — never left
EXECUTING. -/
theorem claim_C8 (h b : String) (env : Env)
    (hreach : Event.ledgerUpdate .toExecuting ∈
      (process_statement h b env).events) :
    ∃ d, (process_statement h b env).ledger = some d ∧
      (d.status = .COMPLETED ∨ d.status = .FAILED) := by
  cases hled : env.ledger with
  | none =>
      exfalso
      simp [process_statement, hled] at hreach
  | some job =>
      cases hsql : sqlMissing job.sql_text with
      | true =>
          exfalso
          simp [process_statement, hled, hsql] at hreach
      | false =>
          cases hex : env.failExecutingUpdate with
          | some msg =>
              exfalso
              simp [process_statement, hled, hsql, hex] at hreach
          | none =>
              cases htry : runTry h b env with
              | error e2 =>
                  obtain ⟨evs, msg⟩ := e2
                  rw [process_err_eq h b env job hled hsql hex evs msg htry]
                  exact ⟨_, rfl, Or.inr rfl⟩
              | ok p =>
                  obtain ⟨evs, m⟩ := p
                  rw [process_ok_eq h b env job hled hsql hex evs m htry]
                  exact ⟨_, rfl, Or.inl rfl⟩

/-- Witness for C8 at a concrete fault-free run. -/
theorem claim_C8_witness :
    (Event.ledgerUpdate .toExecuting ∈
      (process_statement "job-1" "bkt" baseEnv).events) ∧
    (∃ d, (process_statement "job-1" "bkt" baseEnv).ledger = some d ∧
      (d.status = .COMPLETED ∨ d.status = .FAILED)) :=
  ⟨by decide, claim_C8 "job-1" "bkt" baseEnv (by decide)⟩

/-- Counterexample to C1 as stated: the EXECUTING ledger update (step 3,
worker.py line 131) sits before the `try:` at line 141, so when that
update itself raises, the exception is re-raised to the caller but the
ledger record is NOT updated to FAILED (it keeps its prior QUEUED
status, with no error recorded, and no further ledger call is made). -/
theorem claim_C1_counterexample :
    (process_statement "job-1" "bkt" envStep3Fail).outcome =
      .raised "firestore deadline exceeded" ∧
    (process_statement "job-1" "bkt" envStep3Fail).events = [Event.ledgerGet] ∧
    (process_statement "job-1" "bkt" envStep3Fail).ledger = some jobQueued ∧
    jobQueued.status = Status.QUEUED ∧
    jobQueued.status ≠ Status.FAILED ∧
    jobQueued.error = none := by
  refine ⟨rfl, rfl, rfl, rfl, by decide, rfl⟩

/-- C1 (amended): if any exception is raised inside the `try:` block —
steps 4–8: opening the engine, pulling batches, writing any part,
writing the manifest, or the COMPLETED ledger update — then the ledger
record is updated to FAILED with the stringified cause, the original
exception is re-raised to the caller, every part written before the
failure remains in the trace, and no object-store delete is ever
issued.  (An exception in step 3, the EXECUTING update itself, is NOT
covered: it propagates without any FAILED update.) -/
theorem claim_C1_amended (h b : String) (env : Env) (job : JobDoc)
    (hled : env.ledger = some job) (hsql : sqlMissing job.sql_text = false)
    (hex : env.failExecutingUpdate = none)
    (evs : List Event) (msg : String)
    (htry : runTry h b env = .error (evs, msg)) :
    (process_statement h b env).outcome = .raised msg ∧
    (∃ d, (process_statement h b env).ledger = some d ∧
      d.status = .FAILED ∧ d.error = some msg) ∧
    (process_statement h b env).events =
      [Event.ledgerGet, Event.ledgerUpdate .toExecuting] ++ evs
        ++ [Event.ledgerUpdate (.toFailed msg)] ∧
    (∀ p t, Event.partWrite p t ∈ evs →
      Event.partWrite p t ∈ (process_statement h b env).events) ∧
    (∀ e ∈ (process_statement h b env).events, isDelete e = false) := by
  rw [process_err_eq h b env job hled hsql hex evs msg htry]
  refine ⟨rfl, ⟨_, rfl, rfl, rfl⟩, rfl, ?_, ?_⟩
  · intro p t hpt
    simp [hpt]
  · intro e he
    simp only [List.cons_append, List.nil_append, List.mem_cons,
      List.mem_append] at he
    rcases he with he | he | he | he
    · subst he; rfl
    · subst he; rfl
    · rcases runTry_error_spec h b env evs msg htry with hben | ⟨E, mm, hevs2, hbenE, _⟩
      · exact benign_not_delete (hben e he)
      · subst hevs2
        rcases List.mem_append.mp he with he | he
        · exact benign_not_delete (hbenE e he)
        · simp at he; subst he; rfl
    · simp at he; subst he; rfl

/-- Witness for C1 (amended): the engine raises after one flushed part. -/
theorem claim_C1_witness :
    (envEngineFail.ledger = some jobQueued ∧
     sqlMissing jobQueued.sql_text = false ∧
     envEngineFail.failExecutingUpdate = none ∧
     runTry "job-1" "bkt" envEngineFail =
       .error ([Event.engineOpen,
         Event.partWrite "gs://bkt/job-1/part_0000.parquet" [bigBatch]],
         "engine exploded")) ∧
    ((process_statement "job-1" "bkt" envEngineFail).outcome =
       .raised "engine exploded" ∧
     (∃ d, (process_statement "job-1" "bkt" envEngineFail).ledger = some d ∧
       d.status = .FAILED ∧ d.error = some "engine exploded") ∧
     (process_statement "job-1" "bkt" envEngineFail).events =
       [Event.ledgerGet, Event.ledgerUpdate .toExecuting]
         ++ [Event.engineOpen,
             Event.partWrite "gs://bkt/job-1/part_0000.parquet" [bigBatch]]
         ++ [Event.ledgerUpdate (.toFailed "engine exploded")] ∧
     (∀ p t, Event.partWrite p t ∈
         [Event.engineOpen,
          Event.partWrite "gs://bkt/job-1/part_0000.parquet" [bigBatch]] →
       Event.partWrite p t ∈
         (process_statement "job-1" "bkt" envEngineFail).events) ∧
     (∀ e ∈ (process_statement "job-1" "bkt" envEngineFail).events,
       isDelete e = false)) :=
  ⟨⟨rfl, rfl, rfl, by rfl⟩,
   claim_C1_amended "job-1" "bkt" envEngineFail jobQueued rfl rfl rfl _ _
     (by rfl)⟩

theorem benign_ne_ledgerUpdate {e : Event} (h : benignEvent e)
    (u : LedgerUpdate) : e ≠ Event.ledgerUpdate u := by
  rcases h with h | ⟨p, t, h⟩ <;> subst h <;> simp

theorem benign_ne_manifestWrite {e : Event} (h : benignEvent e)
    (p : String) (m : Manifest) : e ≠ Event.manifestWrite p m := by
  rcases h with h | ⟨p2, t, h⟩ <;> subst h <;> simp

/-- C10: in every execution, part descriptors enter the manifest only
for part writes that returned, and the manifest write and the COMPLETED
ledger update come after all part writes: whenever the trace splits
around a manifest write, the manifest's part paths are exactly the part
writes before it and no part write follows it; and whenever the trace
splits around a COMPLETED ledger update, a manifest write precedes it
and no part write follows it. -/
theorem claim_C10 (h b : String) (env : Env) :
    (∀ pre p m post,
        (process_statement h b env).events =
          pre ++ Event.manifestWrite p m :: post →
        m.parts.map PartEntry.path = partWritePaths pre ∧
          partWritePaths post = []) ∧
    (∀ pre u post,
        (process_statement h b env).events =
          pre ++ Event.ledgerUpdate u :: post →
        isCompletedUpdate (Event.ledgerUpdate u) = true →
        manifestsWritten pre ≠ [] ∧ partWritePaths post = []) := by
  cases hled : env.ledger with
  | none =>
      have hev : (process_statement h b env).events = [Event.ledgerGet] := by
        simp [process_statement, hled]
      constructor
      · intro pre p m post heq
        rw [hev] at heq
        have hmem : Event.manifestWrite p m ∈ [Event.ledgerGet] := by
          rw [heq]; simp
        simp at hmem
      · intro pre u post heq hcu
        rw [hev] at heq
        have hmem : Event.ledgerUpdate u ∈ [Event.ledgerGet] := by
          rw [heq]; simp
        simp at hmem
  | some job =>
  cases hsql : sqlMissing job.sql_text with
  | true =>
      have hev : (process_statement h b env).events =
          [Event.ledgerGet, Event.ledgerUpdate (.toFailed "missing sql_text")] := by
        simp [process_statement, hled, hsql]
      constructor
      · intro pre p m post heq
        rw [hev] at heq
        have hmem : Event.manifestWrite p m ∈
            [Event.ledgerGet, Event.ledgerUpdate (.toFailed "missing sql_text")] := by
          rw [heq]; simp
        simp at hmem
      · intro pre u post heq hcu
        rw [hev] at heq
        have hmem : Event.ledgerUpdate u ∈
            [Event.ledgerGet, Event.ledgerUpdate (.toFailed "missing sql_text")] := by
          rw [heq]; simp
        simp at hmem
        subst hmem
        simp [isCompletedUpdate] at hcu
  | false =>
  cases hex : env.failExecutingUpdate with
  | some msg =>
      have hev : (process_statement h b env).events = [Event.ledgerGet] := by
        simp [process_statement, hled, hsql, hex]
      constructor
      · intro pre p m post heq
        rw [hev] at heq
        have hmem : Event.manifestWrite p m ∈ [Event.ledgerGet] := by
          rw [heq]; simp
        simp at hmem
      · intro pre u post heq hcu
        rw [hev] at heq
        have hmem : Event.ledgerUpdate u ∈ [Event.ledgerGet] := by
          rw [heq]; simp
        simp at hmem
  | none =>
  cases htry : runTry h b env with
  | error e2 =>
      obtain ⟨evs, msg⟩ := e2
      have hev := congrArg RunResult.events
        (process_err_eq h b env job hled hsql hex evs msg htry)
      simp only [] at hev
      rcases runTry_error_spec h b env evs msg htry with hben |
        ⟨E, mm, hevs2, hbenE, hpathsE⟩
      · constructor
        · intro pre p m post heq
          rw [hev] at heq
          have hmem : Event.manifestWrite p m ∈
              [Event.ledgerGet, Event.ledgerUpdate .toExecuting] ++ evs
                ++ [Event.ledgerUpdate (.toFailed msg)] := by
            rw [heq]; simp
          simp only [List.mem_append, List.mem_cons,
            List.not_mem_nil, or_false] at hmem
          rcases hmem with ((hmem | hmem) | hmem) | hmem
          · cases hmem
          · cases hmem
          · exact absurd rfl (benign_ne_manifestWrite (hben _ hmem) p m).symm
          · cases hmem
        · intro pre u post heq hcu
          rw [hev] at heq
          have hmem : Event.ledgerUpdate u ∈
              [Event.ledgerGet, Event.ledgerUpdate .toExecuting] ++ evs
                ++ [Event.ledgerUpdate (.toFailed msg)] := by
            rw [heq]; simp
          simp only [List.mem_append, List.mem_cons,
            List.not_mem_nil, or_false] at hmem
          rcases hmem with ((hmem | hmem) | hmem) | hmem
          · cases hmem
          · cases hmem; simp [isCompletedUpdate] at hcu
          · exact absurd rfl (benign_ne_ledgerUpdate (hben _ hmem) u).symm
          · cases hmem; simp [isCompletedUpdate] at hcu
      · subst hevs2
        have hre : [Event.ledgerGet, Event.ledgerUpdate .toExecuting]
              ++ (E ++ [Event.manifestWrite (manifestPath b h) mm])
              ++ [Event.ledgerUpdate (.toFailed msg)] =
            (Event.ledgerGet :: Event.ledgerUpdate .toExecuting :: E)
              ++ Event.manifestWrite (manifestPath b h) mm
                :: [Event.ledgerUpdate (.toFailed msg)] := by
          simp
        have hAmw : ∀ x ∈ Event.ledgerGet :: Event.ledgerUpdate .toExecuting :: E,
            isManifestWrite x = false := by
          intro x hx
          simp only [List.mem_cons] at hx
          rcases hx with hx | hx | hx
          · subst hx; rfl
          · subst hx; rfl
          · exact benign_not_manifestWrite (hbenE x hx)
        have hBmw : ∀ x ∈ [Event.ledgerUpdate (.toFailed msg)],
            isManifestWrite x = false := by
          intro x hx; simp at hx; subst hx; rfl
        constructor
        · intro pre p m post heq
          rw [hev, hre] at heq
          obtain ⟨hpre, hf, hpost⟩ := split_unique isManifestWrite
            (Event.ledgerGet :: Event.ledgerUpdate .toExecuting :: E)
            (Event.manifestWrite (manifestPath b h) mm)
            [Event.ledgerUpdate (.toFailed msg)] pre post
            (Event.manifestWrite p m) hAmw hBmw rfl rfl heq
          injection hf with hf1 hf2
          subst hf2
          constructor
          · rw [hpre]
            simp only [partWritePaths_cons, List.nil_append]
            exact hpathsE
          · rw [hpost]; rfl
        · intro pre u post heq hcu
          rw [hev] at heq
          have hmem : Event.ledgerUpdate u ∈
              [Event.ledgerGet, Event.ledgerUpdate .toExecuting]
                ++ (E ++ [Event.manifestWrite (manifestPath b h) mm])
                ++ [Event.ledgerUpdate (.toFailed msg)] := by
            rw [heq]; simp
          simp only [List.mem_append, List.mem_cons,
            List.not_mem_nil, or_false] at hmem
          rcases hmem with ((hmem | hmem) | hmem | hmem) | hmem
          · cases hmem
          · cases hmem; simp [isCompletedUpdate] at hcu
          · exact absurd rfl (benign_ne_ledgerUpdate (hbenE _ hmem) u).symm
          · cases hmem
          · cases hmem; simp [isCompletedUpdate] at hcu
  | ok p2 =>
      obtain ⟨evs, m0⟩ := p2
      have hev := congrArg RunResult.events
        (process_ok_eq h b env job hled hsql hex evs m0 htry)
      simp only [] at hev
      obtain ⟨E, hevs, hbenign, hpaths, htab, htabne, hpr, htp, htr, hts, hcz,
        hcl, hws, hcols, hsum, hsz, hne⟩ := runTry_ok_spec h b env evs m0 htry
      subst hevs
      have hAmw : ∀ x ∈ Event.ledgerGet :: Event.ledgerUpdate .toExecuting :: E,
          isManifestWrite x = false := by
        intro x hx
        simp only [List.mem_cons] at hx
        rcases hx with hx | hx | hx
        · subst hx; rfl
        · subst hx; rfl
        · exact benign_not_manifestWrite (hbenign x hx)
      constructor
      · intro pre p m post heq
        rw [hev] at heq
        have hre : [Event.ledgerGet, Event.ledgerUpdate .toExecuting]
              ++ (E ++ [Event.manifestWrite (manifestPath b h) m0,
                Event.ledgerUpdate (.toCompleted m0.total_rows (manifestPath b h)
                  m0.total_size_estimate m0.columns env.telemetry)]) =
            (Event.ledgerGet :: Event.ledgerUpdate .toExecuting :: E)
              ++ Event.manifestWrite (manifestPath b h) m0
                :: [Event.ledgerUpdate (.toCompleted m0.total_rows (manifestPath b h)
                  m0.total_size_estimate m0.columns env.telemetry)] := by
          simp
        rw [hre] at heq
        have hBmw : ∀ x ∈ [Event.ledgerUpdate (.toCompleted m0.total_rows
            (manifestPath b h) m0.total_size_estimate m0.columns env.telemetry)],
            isManifestWrite x = false := by
          intro x hx; simp at hx; subst hx; rfl
        obtain ⟨hpre, hf, hpost⟩ := split_unique isManifestWrite
          (Event.ledgerGet :: Event.ledgerUpdate .toExecuting :: E)
          (Event.manifestWrite (manifestPath b h) m0)
          [Event.ledgerUpdate (.toCompleted m0.total_rows (manifestPath b h)
            m0.total_size_estimate m0.columns env.telemetry)] pre post
          (Event.manifestWrite p m) hAmw hBmw rfl rfl heq
        injection hf with hf1 hf2
        subst hf2
        constructor
        · rw [hpre]
          simp only [partWritePaths_cons, List.nil_append]
          exact hpaths.symm
        · rw [hpost]; rfl
      · intro pre u post heq hcu
        rw [hev] at heq
        have hre : [Event.ledgerGet, Event.ledgerUpdate .toExecuting]
              ++ (E ++ [Event.manifestWrite (manifestPath b h) m0,
                Event.ledgerUpdate (.toCompleted m0.total_rows (manifestPath b h)
                  m0.total_size_estimate m0.columns env.telemetry)]) =
            (Event.ledgerGet :: Event.ledgerUpdate .toExecuting :: E
                ++ [Event.manifestWrite (manifestPath b h) m0])
              ++ Event.ledgerUpdate (.toCompleted m0.total_rows (manifestPath b h)
                  m0.total_size_estimate m0.columns env.telemetry) :: [] := by
          simp
        rw [hre] at heq
        have hAcu : ∀ x ∈ Event.ledgerGet :: Event.ledgerUpdate .toExecuting :: E
            ++ [Event.manifestWrite (manifestPath b h) m0],
            isCompletedUpdate x = false := by
          intro x hx
          simp only [List.cons_append, List.mem_cons, List.mem_append,
            List.mem_singleton, List.not_mem_nil, or_false] at hx
          rcases hx with hx | hx | hx | hx
          · subst hx; rfl
          · subst hx; rfl
          · exact benign_not_completedUpdate (hbenign x hx)
          · subst hx; rfl
        have hBcu : ∀ x ∈ ([] : List Event), isCompletedUpdate x = false := by
          intro x hx; simp at hx
        obtain ⟨hpre, hf, hpost⟩ := split_unique isCompletedUpdate
          (Event.ledgerGet :: Event.ledgerUpdate .toExecuting :: E
            ++ [Event.manifestWrite (manifestPath b h) m0])
          (Event.ledgerUpdate (.toCompleted m0.total_rows (manifestPath b h)
            m0.total_size_estimate m0.columns env.telemetry))
          [] pre post (Event.ledgerUpdate u) hAcu hBcu rfl hcu heq
        constructor
        · rw [hpre]
          simp only [List.cons_append, manifestsWritten_cons,
            manifestsWritten_append, List.nil_append,
            benign_no_manifest hbenign]
          simp
        · rw [hpost]; rfl

/-- Witness for C10: both split shapes at a concrete empty-stream run. -/
theorem claim_C10_witness :
    (((process_statement "job-1" "bkt" envEmptyStream).events =
        [Event.ledgerGet, Event.ledgerUpdate .toExecuting, Event.engineOpen]
          ++ Event.manifestWrite (manifestPath "bkt" "job-1")
              (buildManifest "job-1" "bkt" [] 0 [colId] "2026-10-12T00:00:00+00:00")
            :: [Event.ledgerUpdate (.toCompleted 0 (manifestPath "bkt" "job-1") 0
              [colId] "telemetry")]) ∧
      ((buildManifest "job-1" "bkt" [] 0 [colId]
          "2026-10-12T00:00:00+00:00").parts.map PartEntry.path =
        partWritePaths
          [Event.ledgerGet, Event.ledgerUpdate .toExecuting, Event.engineOpen] ∧
       partWritePaths [Event.ledgerUpdate (.toCompleted 0
         (manifestPath "bkt" "job-1") 0 [colId] "telemetry")] = [])) ∧
    (((process_statement "job-1" "bkt" envEmptyStream).events =
        [Event.ledgerGet, Event.ledgerUpdate .toExecuting, Event.engineOpen,
          Event.manifestWrite (manifestPath "bkt" "job-1")
            (buildManifest "job-1" "bkt" [] 0 [colId] "2026-10-12T00:00:00+00:00")]
          ++ Event.ledgerUpdate (.toCompleted 0 (manifestPath "bkt" "job-1") 0
              [colId] "telemetry") :: []) ∧
      isCompletedUpdate (Event.ledgerUpdate (.toCompleted 0
        (manifestPath "bkt" "job-1") 0 [colId] "telemetry")) = true ∧
      (manifestsWritten
          [Event.ledgerGet, Event.ledgerUpdate .toExecuting, Event.engineOpen,
            Event.manifestWrite (manifestPath "bkt" "job-1")
              (buildManifest "job-1" "bkt" [] 0 [colId]
                "2026-10-12T00:00:00+00:00")] ≠ [] ∧
       partWritePaths ([] : List Event) = [])) :=
  ⟨⟨by rfl, (claim_C10 "job-1" "bkt" envEmptyStream).1 _ _ _ _ (by rfl)⟩,
   ⟨by rfl, rfl, (claim_C10 "job-1" "bkt" envEmptyStream).2 _ _ _ (by rfl)
     (by rfl)⟩⟩
